import Mathlib

/-!
Shallow embedding of src/photo_frame.py, a digital photo-frame
application: a module-level fetch function, a `PhotoCache` class wrapping a
bounded `queue.Queue` with one background producer thread, and a `PhotoFrame`
tkinter application whose timer callback `update_image` consumes photos.

External effects (HTTP responses, process memory probes, PIL image objects,
tkinter widget state) are represented by explicit environment records and by
image identifiers; Python dicts are association lists; Python strings are
lists of characters.
-/

namespace PhotoFrameApp

/-- Configuration constant `UPDATE_INTERVAL` (ms), photo_frame.py line 15. -/
def UPDATE_INTERVAL : Nat := 180000

/-- Configuration constant `CACHE_SIZE`, photo_frame.py line 16. -/
def CACHE_SIZE : Nat := 2

/-- Configuration constant `PREFETCH_THRESHOLD`, photo_frame.py line 17. -/
def PREFETCH_THRESHOLD : Nat := 1

/-- Configuration constant `MAX_MEMORY_MB`, photo_frame.py line 18. -/
def MAX_MEMORY_MB : Nat := 150

/-! ### Python string helpers

`location.replace('_', ' ').replace('-', ' ').title()` at line 43 of the
source uses single-character `str.replace` (a character map) and `str.title`
(a cased character following a non-cased character is uppercased, every other
cased character is lowercased; modelled for alphabetic ASCII characters). -/

/-- Python `s.replace(old, new)` for a single-character pattern. -/
def pyReplaceChar (old new : Char) (s : List Char) : List Char :=
  s.map fun c => if c = old then new else c

/-- Helper for `pyTitle`: the flag records whether the previous character was
a cased (alphabetic) character. -/
def pyTitleAux : Bool → List Char → List Char
  | _, [] => []
  | prevCased, c :: cs =>
    if c.isAlpha then
      (if prevCased then c.toLower else c.toUpper) :: pyTitleAux true cs
    else
      c :: pyTitleAux false cs

/-- Python `s.title()`. -/
def pyTitle (s : List Char) : List Char := pyTitleAux false s

/-- The default location string (photo_frame.py line 42). -/
def UNKNOWN_LOCATION : List Char := "Unknown Location".data

/-! ### Photo records

The function `get_random_photo_from_api` returns a dict with keys `image`
and `location`; cache and display code probe it with `in` tests.
PIL image objects are modelled by an identifier plus their dimensions. -/

/-- A PIL image object: identity plus width and height. -/
structure ImageObj where
  id : Nat
  width : Nat
  height : Nat
deriving DecidableEq

/-- A Python value stored in a photo record: an image object or a string. -/
inductive PyVal where
  | vImg (img : ImageObj)
  | vStr (s : List Char)
deriving DecidableEq

/-- A photo record: a Python dict as an association list. -/
abbrev PhotoData := List (String × PyVal)

/-- Dict lookup: the value under a key, when present. -/
def dictGet (k : String) (pd : PhotoData) : Option PyVal :=
  match pd.find? (fun p => p.1 == k) with
  | some p => some p.2
  | none => none

/-- Model of the `image` entry of a record, when it is an image object. -/
def pdImage (pd : PhotoData) : Option ImageObj :=
  match dictGet "image" pd with
  | some (PyVal.vImg img) => some img
  | _ => none

/-- Model of the `location` entry of a record, when it is a string. -/
def pdLocation (pd : PhotoData) : Option (List Char) :=
  match dictGet "location" pd with
  | some (PyVal.vStr s) => some s
  | _ => none

/-- The ids of the image objects that `cleanup_cache` closes on one drained
record (photo_frame.py lines 91 to 93): the `image` entry when the record
is truthy and carries one. -/
def closeIdsOf (pd : PhotoData) : List Nat :=
  match dictGet "image" pd with
  | some (PyVal.vImg img) => [img.id]
  | _ => []

/-! ### get_random_photo_from_api (photo_frame.py lines 21 to 56) -/

/-- The JSON body of the metadata response, as the code inspects it:
its truthiness, the `fullUrl` field and the `place` field. -/
structure ApiData where
  isTruthy : Bool
  fullUrl : Option (List Char)
  place : Option (List Char)
deriving DecidableEq

/-- Environment of one `get_random_photo_from_api` call: the outcome of the
metadata request (`none` models a raised `requests` exception), and the
outcome of the image request plus decode (outer `none` models a raised
`requests` exception, inner `none` an image that `Image.open`/`load`
rejects). -/
structure ApiEnv where
  metaResult : Option ApiData
  imgResult : Option (Option ImageObj)
deriving DecidableEq

/-- The distinct return sites of `get_random_photo_from_api`, each identified
by the message it prints before returning. -/
inductive FetchResult where
  | ok (pd : PhotoData)
  | errRequest
  | errFormat
  | errImage
deriving DecidableEq

/-- Embeds `get_random_photo_from_api`, with each `return None` site kept
distinct (photo_frame.py lines 21 to 56). -/
def get_random_photo_from_api_r (env : ApiEnv) : FetchResult :=
  match env.metaResult with
  | none => FetchResult.errRequest
  | some data =>
    if data.isTruthy && data.fullUrl.isSome then
      match env.imgResult with
      | none => FetchResult.errRequest
      | some none => FetchResult.errImage
      | some (some image) =>
        let place := data.place.getD UNKNOWN_LOCATION
        let location :=
          pyTitle (pyReplaceChar '-' ' ' (pyReplaceChar '_' ' ' place))
        FetchResult.ok [("image", PyVal.vImg image),
                        ("location", PyVal.vStr location)]
    else
      FetchResult.errFormat

/-- The value `get_random_photo_from_api` returns to its callers. -/
def get_random_photo_from_api (env : ApiEnv) : Option PhotoData :=
  match get_random_photo_from_api_r env with
  | FetchResult.ok pd => some pd
  | _ => none

/-- Whether a fetch ended at one of the three failure return sites. -/
def FetchResult.isFailure : FetchResult → Bool
  | FetchResult.ok _ => false
  | _ => true

/-! ### PhotoCache (photo_frame.py lines 58 to 139)

The queue is single-producer single-consumer; its contents evolve only at
the atomic queue operations (`put`, `get_nowait`, the emptiness and size
probes), so the state machine interleaves whole producer iterations,
consumer calls and flag writes as atomic events. Closing an image object is
recorded by appending its id to `closed_imgs`; `gc.collect()` calls are
counted. -/

/-- The mutable state of a `PhotoCache` object (lines 61 to 66), plus the
image-close and garbage-collection effects it performs. -/
structure CacheState where
  cache_size : Nat
  photo_queue : List PhotoData
  stop_fetching : Bool
  closed_imgs : List Nat
  gc_count : Nat
deriving DecidableEq

/-- Embeds `PhotoCache.__init__` with the default `cache_size=CACHE_SIZE`. -/
def initCache : CacheState :=
  { cache_size := CACHE_SIZE
    photo_queue := []
    stop_fetching := false
    closed_imgs := []
    gc_count := 0 }

/-- Embeds `PhotoCache.stop_background_fetching` (lines 75 to 77). -/
def stop_background_fetching (s : CacheState) : CacheState :=
  { s with stop_fetching := true }

/-- Embeds `PhotoCache.cleanup_cache` (lines 84 to 99): drain the queue, closing
the image object of every drained record, then `gc.collect()`. -/
def cleanup_cache (s : CacheState) : CacheState :=
  { s with
    photo_queue := []
    closed_imgs := s.closed_imgs ++ s.photo_queue.flatMap closeIdsOf
    gc_count := s.gc_count + 1 }

/-- Environment of one `_background_fetch` loop iteration: the memory probe
(MB), what `get_random_photo_from_api` would return if called, and whether
an unexpected exception is raised in the iteration body (caught at lines
123 to 125). -/
structure IterEnv where
  memory_mb : Nat
  fetchResult : Option PhotoData
  raisesExc : Bool
deriving DecidableEq

/-- How one `_background_fetch` iteration ended: which branch ran and how
long it sleeps before the next loop-condition check. -/
inductive IterAction where
  | halt
  | cleanup (sleep : Nat)
  | cached
  | droppedPhoto
  | fetchFailed (sleep : Nat)
  | queueFull (sleep : Nat)
  | excCaught (sleep : Nat)
deriving DecidableEq

/-- The body of one `_background_fetch` iteration (lines 104 to 125),
entered after the `while not self.stop_fetching` check passed. -/
def background_fetch_iter (env : IterEnv) (s : CacheState) :
    CacheState × IterAction :=
  if env.raisesExc then
    (s, IterAction.excCaught 5)
  else if env.memory_mb > MAX_MEMORY_MB then
    (cleanup_cache s, IterAction.cleanup 10)
  else if s.photo_queue.length < s.cache_size then
    match env.fetchResult with
    | some photo_data =>
      if s.photo_queue.length < s.cache_size then
        ({ s with photo_queue := s.photo_queue ++ [photo_data] },
         IterAction.cached)
      else
        (s, IterAction.droppedPhoto)
    | none => (s, IterAction.fetchFailed 5)
  else
    (s, IterAction.queueFull 30)

/-- One pass of the `while not self.stop_fetching` loop head (line 103):
exit when the flag is set, otherwise run the iteration body. -/
def background_fetch_step (env : IterEnv) (s : CacheState) :
    CacheState × IterAction :=
  if s.stop_fetching then (s, IterAction.halt)
  else background_fetch_iter env s

/-- The `_background_fetch` loop run against a finite list of iteration
environments; returns the final state and the number of iteration bodies
that were executed. -/
def background_fetch_loop (envs : List IterEnv) (s : CacheState) :
    CacheState × Nat :=
  match envs with
  | [] => (s, 0)
  | env :: rest =>
    if s.stop_fetching then (s, 0)
    else
      let out := background_fetch_loop rest (background_fetch_iter env s).1
      (out.1, out.2 + 1)

/-- Embeds `PhotoCache.get_photo` (lines 127 to 139): dequeue when the queue is
non-empty, otherwise fetch immediately; `fallback` is what the immediate
`get_random_photo_from_api()` call would return. -/
def get_photo (fallback : Option PhotoData) (s : CacheState) :
    CacheState × Option PhotoData :=
  match s.photo_queue with
  | [] => (s, fallback)
  | photo_data :: rest =>
    ({ s with photo_queue := rest }, some photo_data)

/-- The atomic events that touch a `PhotoCache`: one producer loop pass,
one consumer `get_photo` call, one `stop_background_fetching` call. -/
inductive Event where
  | bgStep (env : IterEnv)
  | consume (fallback : Option PhotoData)
  | stopFetch
deriving DecidableEq

/-- Effect of one event on the cache state. -/
def applyEvent (s : CacheState) : Event → CacheState
  | Event.bgStep env => (background_fetch_step env s).1
  | Event.consume fallback => (get_photo fallback s).1
  | Event.stopFetch => stop_background_fetching s

/-- A system run: the events applied in order, from a given state. -/
def runEvents (s : CacheState) (es : List Event) : CacheState :=
  es.foldl applyEvent s

/-! ### PhotoFrame.update_image (photo_frame.py lines 294 to 348)

Tkinter widget state is reduced to what the claims mention: the PIL source
of the rendering currently configured on the display label, and whether the
root window has been destroyed (in which case `self.root.after` raises
`tk.TclError` and no next update is scheduled). -/

/-- The `PhotoFrame` fields `update_image` touches, plus the image-close
effects it performs. -/
structure FrameState where
  cache : CacheState
  current_pil_image : Option ImageObj
  current_location : Option (List Char)
  label_image : Option ImageObj
  closed_imgs : List Nat
  window_destroyed : Bool
deriving DecidableEq

/-- Environment of one `update_image` call: the immediate fetch result used
when the cache is empty, the window dimensions, fresh object ids for the two
copies the call may create, and whether `add_location_text` hits its outer
exception handler (and so returns its argument unchanged). -/
structure UpdEnv where
  fallback_fetch : Option PhotoData
  window_width : Nat
  window_height : Nat
  copy_id : Nat
  text_id : Nat
  text_err : Bool
deriving DecidableEq

/-- Model of the PIL library call `img.thumbnail((bw, bh), ...)`: dimensions
shrunk proportionally to fit the bounds, never enlarged. -/
def thumbnail_dims (w h bw bh : Nat) : Nat × Nat :=
  if w ≤ bw ∧ h ≤ bh then (w, h)
  else if w * bh ≤ bw * h then (w * bh / h, bh)
  else (bw, h * bw / w)

/-- Embeds `PhotoFrame.update_image` (lines 294 to 348). Returns the new state and
the delay passed to `self.root.after` for the next update (`none` when the
window was destroyed and the call raised `tk.TclError`).

The body follows the source: remember the old image, call `get_photo`; on a
record with an `image` entry assign `current_pil_image` and
`current_location`, build the scaled display copy, overlay the location text
via `add_location_text` (closing the intermediate copy when a new object
came back), configure the label with the rendering, close the old image,
and in `finally` close the display copy; otherwise only log. An `image`
entry without a `location` entry raises `KeyError` after
`current_pil_image` was assigned; the handler at line 334 swallows it. -/
def update_image (env : UpdEnv) (s : FrameState) : FrameState × Option Nat :=
  let old_image := s.current_pil_image
  let gp := get_photo env.fallback_fetch s.cache
  let s1 : FrameState := { s with cache := gp.1 }
  let photo_data := gp.2
  let s2 : FrameState :=
    match photo_data with
    | some pd =>
      match pdImage pd with
      | some img =>
        match pdLocation pd with
        | some loc =>
          let dims := thumbnail_dims img.width img.height
            env.window_width env.window_height
          let display0 : ImageObj :=
            { id := env.copy_id, width := dims.1, height := dims.2 }
          let textOut : ImageObj × List Nat :=
            if loc ≠ [] then
              if env.text_err then (display0, [])
              else ({ display0 with id := env.text_id }, [display0.id])
            else (display0, [])
          let display := textOut.1
          let s3 : FrameState :=
            { s1 with
              current_pil_image := some img
              current_location := some loc
              label_image := some display
              closed_imgs := s1.closed_imgs ++ textOut.2 }
          let s4 : FrameState :=
            match old_image with
            | some oldImg =>
              { s3 with closed_imgs := s3.closed_imgs ++ [oldImg.id] }
            | none => s3
          { s4 with closed_imgs := s4.closed_imgs ++ [display.id] }
        | none =>
          { s1 with current_pil_image := some img }
      | none => s1
    | none => s1
  (s2, if s2.window_destroyed then none else some UPDATE_INTERVAL)

/-! ### PhotoFrame.add_location_text (photo_frame.py lines 189 to 245)

Image mutation is the point of this function, so here image objects live in
a heap mapping ids to their data: dimensions, the list of text overlays
drawn onto them, and whether they have been closed. -/

/-- Heap contents of one PIL image object. -/
structure ImgData where
  width : Nat
  height : Nat
  overlays : List (List Char)
  closed : Bool
deriving DecidableEq

/-- The image heap: ids mapped to image data. -/
abbrev Heap := List (Nat × ImgData)

/-- Look an image up in the heap. -/
def heapGet (h : Heap) (i : Nat) : Option ImgData :=
  match h.find? (fun p => p.1 == i) with
  | some p => some p.2
  | none => none

/-- Overwrite the data of an existing heap entry. -/
def heapSet (h : Heap) (i : Nat) (d : ImgData) : Heap :=
  h.map fun p => if p.1 == i then (i, d) else p

/-- Environment of one `add_location_text` call: whether `image.copy()`
raises (reaching the outer handler with no copy made), whether
`ImageDraw.Draw` raises (reaching the outer handler with the copy already
made), the id allocated for the copy, whether a usable font was obtained
(lines 198 to 219 always handle their own errors, possibly leaving
`font = None`), and whether `draw.textbbox`/`draw.text` raises (caught at
lines 232 to 233). -/
structure TextEnv where
  copy_raises : Bool
  draw_init_raises : Bool
  new_id : Nat
  font_found : Bool
  draw_raises : Bool
deriving DecidableEq

/-- Embeds `PhotoFrame.add_location_text` (lines 189 to 245) over the image heap:
returns the updated heap and the id of the returned image object. Every
exception is caught: the outer handler closes the copy when one was made
and returns the original image. -/
def add_location_text (env : TextEnv) (h : Heap) (image : Nat)
    (location_text : List Char) : Heap × Nat :=
  match heapGet h image with
  | none => (h, image)
  | some orig =>
    if env.copy_raises then
      -- `image.copy()` raised: with no copy recorded (`img_with_text` is
      -- still None), the handler just returns the original.
      (h, image)
    else
      let copyData : ImgData :=
        { width := orig.width, height := orig.height
          overlays := orig.overlays, closed := false }
      let h1 : Heap := (env.new_id, copyData) :: h
      if env.draw_init_raises then
        -- `ImageDraw.Draw` raised: the handler closes the copy it finds in
        -- `img_with_text` and returns the original.
        (heapSet h1 env.new_id { copyData with closed := true }, image)
      else if env.font_found ∧ location_text ≠ [] ∧ ¬env.draw_raises then
        (heapSet h1 env.new_id
          { copyData with overlays := orig.overlays ++ [location_text] },
         env.new_id)
      else
        (h1, env.new_id)

/-! ### The no-eviction claim and concrete sample data -/

/-- The claim that cache entries are removed only by `get_photo` dequeues:
whenever an event run from the initial cache state shrinks the photo queue,
that event is a consumer call. -/
def noEvictionClaim : Prop :=
  ∀ (es : List Event) (e : Event),
    (applyEvent (runEvents initCache es) e).photo_queue.length <
      (runEvents initCache es).photo_queue.length →
    ∃ fallback, e = Event.consume fallback

/-- A sample photo record as `get_random_photo_from_api` would build it. -/
def samplePhoto : PhotoData :=
  [("image", PyVal.vImg { id := 7, width := 640, height := 480 }),
   ("location", PyVal.vStr "New York".data)]

/-- A producer iteration that fetches `samplePhoto` under low memory. -/
def sampleFetchEnv : IterEnv :=
  { memory_mb := 100, fetchResult := some samplePhoto, raisesExc := false }

/-- A producer iteration that probes memory above `MAX_MEMORY_MB`. -/
def sampleHotEnv : IterEnv :=
  { memory_mb := 200, fetchResult := none, raisesExc := false }

/-- A cache holding one photo record. -/
def sampleCache : CacheState :=
  { cache_size := CACHE_SIZE
    photo_queue := [samplePhoto]
    stop_fetching := false
    closed_imgs := []
    gc_count := 0 }

/-- A frame displaying an earlier photo, with `sampleCache` behind it. -/
def sampleFrame : FrameState :=
  { cache := sampleCache
    current_pil_image := some { id := 1, width := 300, height := 200 }
    current_location := some "Old Town".data
    label_image := some { id := 2, width := 300, height := 200 }
    closed_imgs := []
    window_destroyed := false }

/-- A frame whose cache is empty, used with an empty fallback. -/
def emptyCacheFrame : FrameState :=
  { sampleFrame with cache := initCache }

/-- An `update_image` environment with an empty immediate-fetch fallback. -/
def sampleUpdEnv : UpdEnv :=
  { fallback_fetch := none
    window_width := 800
    window_height := 600
    copy_id := 20
    text_id := 21
    text_err := false }

/-- A heap holding one open image object with id 3. -/
def sampleHeap : Heap :=
  [(3, { width := 100, height := 80, overlays := [], closed := false })]

/-- An `add_location_text` environment on the happy path. -/
def sampleTextEnv : TextEnv :=
  { copy_raises := false
    draw_init_raises := false
    new_id := 9
    font_found := true
    draw_raises := false }

/-- An API environment: metadata with a url and a place, decodable image. -/
def sampleApiEnv : ApiEnv :=
  { metaResult := some
      { isTruthy := true
        fullUrl := some "http:u".data
        place := some "new_york-city".data }
    imgResult := some (some { id := 7, width := 640, height := 480 }) }

/-- An API environment whose metadata request raises. -/
def failApiEnv : ApiEnv := { metaResult := none, imgResult := none }

/-- A producer iteration whose fetch fails under low memory. -/
def sampleFailFetchEnv : IterEnv :=
  { memory_mb := 100, fetchResult := none, raisesExc := false }

/-- A producer iteration whose body raises an unexpected exception. -/
def sampleExcEnv : IterEnv :=
  { memory_mb := 100, fetchResult := none, raisesExc := true }

/-! ## Theorems -/

/-- Every event preserves the configured `cache_size`. -/
theorem applyEvent_cache_size (s : CacheState) (e : Event) :
    (applyEvent s e).cache_size = s.cache_size := by
  cases e with
  | bgStep env =>
    simp only [applyEvent, background_fetch_step, background_fetch_iter,
      cleanup_cache]
    repeat' split
    all_goals rfl
  | consume fallback =>
    simp only [applyEvent, get_photo]
    split
    all_goals rfl
  | stopFetch => rfl

/-- Every event keeps the queue length within `cache_size`. -/
theorem applyEvent_length_le (s : CacheState) (e : Event)
    (hle : s.photo_queue.length ≤ s.cache_size) :
    (applyEvent s e).photo_queue.length ≤ s.cache_size := by
  cases e with
  | bgStep env =>
    simp only [applyEvent, background_fetch_step, background_fetch_iter,
      cleanup_cache]
    repeat' split
    all_goals simp_all
    all_goals omega
  | consume fallback =>
    simp only [applyEvent, get_photo]
    split
    · exact hle
    · simp_all
      omega
  | stopFetch => exact hle

/-- A run preserves the configured `cache_size`. -/
theorem runEvents_cache_size (es : List Event) (s : CacheState) :
    (runEvents s es).cache_size = s.cache_size := by
  induction es generalizing s with
  | nil => rfl
  | cons e rest ih =>
    calc (runEvents s (e :: rest)).cache_size
        = (runEvents (applyEvent s e) rest).cache_size := rfl
      _ = (applyEvent s e).cache_size := ih (applyEvent s e)
      _ = s.cache_size := applyEvent_cache_size s e

/-- The queue-length bound is an inductive invariant of runs. -/
theorem runEvents_length_le (es : List Event) (s : CacheState)
    (hle : s.photo_queue.length ≤ s.cache_size) :
    (runEvents s es).photo_queue.length ≤ s.cache_size := by
  induction es generalizing s with
  | nil => exact hle
  | cons e rest ih =>
    have h1 := applyEvent_length_le s e hle
    have h2 := applyEvent_cache_size s e
    calc (runEvents s (e :: rest)).photo_queue.length
        = (runEvents (applyEvent s e) rest).photo_queue.length := rfl
      _ ≤ (applyEvent s e).cache_size := ih (applyEvent s e) (h2 ▸ h1)
      _ = s.cache_size := h2

/-- A producer iteration that appends a record saw a queue strictly below
`cache_size`. -/
theorem iter_enqueue_guard (env : IterEnv) (s : CacheState) (pd : PhotoData)
    (h : (background_fetch_iter env s).1.photo_queue =
      s.photo_queue ++ [pd]) :
    s.photo_queue.length < s.cache_size := by
  simp only [background_fetch_iter, cleanup_cache] at h
  repeat' split at h
  all_goals simp_all

/-- C2: at every state reachable from `PhotoCache.__init__`, the photo queue
holds at most `CACHE_SIZE` (2) entries; a producer iteration enqueues only
when the queue size it saw was below `CACHE_SIZE`; and on a full queue the
producer performs no put at all, leaving the state unchanged and sleeping 30
seconds before retrying. -/
theorem C2_queue_bounded (es : List Event) (env : IterEnv) :
    (runEvents initCache es).photo_queue.length ≤ CACHE_SIZE ∧
    CACHE_SIZE = 2 ∧
    (∀ pd, (background_fetch_iter env (runEvents initCache es)).1.photo_queue
        = (runEvents initCache es).photo_queue ++ [pd] →
      (runEvents initCache es).photo_queue.length < CACHE_SIZE) ∧
    (env.raisesExc = false → env.memory_mb ≤ MAX_MEMORY_MB →
      CACHE_SIZE ≤ (runEvents initCache es).photo_queue.length →
      background_fetch_iter env (runEvents initCache es) =
        (runEvents initCache es, IterAction.queueFull 30)) := by
  have hsize := runEvents_cache_size es initCache
  refine ⟨?_, rfl, ?_, ?_⟩
  · exact runEvents_length_le es initCache (by simp [initCache])
  · intro pd hpd
    have := iter_enqueue_guard env (runEvents initCache es) pd hpd
    rwa [hsize] at this
  · intro hexc hmem hfull
    have hnot : ¬ (runEvents initCache es).photo_queue.length <
        (runEvents initCache es).cache_size := by
      rw [hsize, show initCache.cache_size = CACHE_SIZE from rfl]; omega
    simp [background_fetch_iter, hexc, hnot, Nat.not_lt_of_le hmem]

/-- Witness for C2 on a concrete run: a fetch, a consume, then an iteration
against the resulting state. -/
theorem C2_queue_bounded_witness :
    (runEvents initCache [Event.bgStep sampleFetchEnv,
        Event.bgStep sampleFetchEnv]).photo_queue.length ≤ CACHE_SIZE ∧
    background_fetch_iter sampleFetchEnv
        (runEvents initCache [Event.bgStep sampleFetchEnv,
          Event.bgStep sampleFetchEnv]) =
      (runEvents initCache [Event.bgStep sampleFetchEnv,
        Event.bgStep sampleFetchEnv], IterAction.queueFull 30) := by
  refine ⟨(C2_queue_bounded [Event.bgStep sampleFetchEnv,
    Event.bgStep sampleFetchEnv] sampleFetchEnv).1, ?_⟩
  exact (C2_queue_bounded [Event.bgStep sampleFetchEnv,
    Event.bgStep sampleFetchEnv] sampleFetchEnv).2.2.2 (by decide) (by decide)
    (by decide)

/-- A producer iteration never changes the stop flag. -/
theorem iter_preserves_stop (env : IterEnv) (s : CacheState) :
    (background_fetch_iter env s).1.stop_fetching = s.stop_fetching := by
  simp only [background_fetch_iter, cleanup_cache]
  repeat' split
  all_goals rfl

/-- C6: after `stop_background_fetching` sets the flag, the next
loop-condition check exits and zero further iteration bodies run, whatever
iterations were still pending; and the flag is the only exit: while it stays
false the loop runs every pending iteration body. -/
theorem C6_stop_flag_only (envs : List IterEnv) (s : CacheState) :
    background_fetch_loop envs (stop_background_fetching s) =
      (stop_background_fetching s, 0) ∧
    (s.stop_fetching = false →
      (background_fetch_loop envs s).2 = envs.length) := by
  constructor
  · cases envs with
    | nil => rfl
    | cons e rest => simp [background_fetch_loop, stop_background_fetching]
  · intro hs
    induction envs generalizing s with
    | nil => rfl
    | cons e rest ih =>
      have hpres : (background_fetch_iter e s).1.stop_fetching = false := by
        rw [iter_preserves_stop]; exact hs
      simp [background_fetch_loop, hs, ih (background_fetch_iter e s).1 hpres]

/-- Witness for C6: a concrete two-iteration schedule against a running
cache. -/
theorem C6_stop_flag_only_witness :
    background_fetch_loop [sampleFetchEnv, sampleHotEnv]
        (stop_background_fetching sampleCache) =
      (stop_background_fetching sampleCache, 0) ∧
    (background_fetch_loop [sampleFetchEnv, sampleHotEnv] sampleCache).2 =
      [sampleFetchEnv, sampleHotEnv].length :=
  ⟨(C6_stop_flag_only [sampleFetchEnv, sampleHotEnv] sampleCache).1,
   (C6_stop_flag_only [sampleFetchEnv, sampleHotEnv] sampleCache).2 rfl⟩

/-- C7: when a producer iteration measures memory above `MAX_MEMORY_MB`, it
runs `cleanup_cache` and sleeps, skipping the fetch (the outcome does not
depend on what a fetch would have returned); `cleanup_cache` closes the
image object of every cached record, leaves the photo queue empty, and runs
`gc.collect()`. -/
theorem C7_memory_pressure_cleanup (env : IterEnv) (s : CacheState)
    (hstop : s.stop_fetching = false) (hexc : env.raisesExc = false)
    (hmem : MAX_MEMORY_MB < env.memory_mb) :
    background_fetch_step env s = (cleanup_cache s, IterAction.cleanup 10) ∧
    (cleanup_cache s).photo_queue = [] ∧
    (cleanup_cache s).closed_imgs =
      s.closed_imgs ++ s.photo_queue.flatMap closeIdsOf ∧
    (cleanup_cache s).gc_count = s.gc_count + 1 ∧
    (∀ r, background_fetch_step
        { env with fetchResult := r } s = background_fetch_step env s) := by
  have hstep : background_fetch_step env s =
      (cleanup_cache s, IterAction.cleanup 10) := by
    simp [background_fetch_step, background_fetch_iter, hstop, hexc, hmem]
  refine ⟨hstep, rfl, rfl, rfl, ?_⟩
  intro r
  rw [hstep]
  simp [background_fetch_step, background_fetch_iter, hstop, hexc, hmem]

/-- Witness for C7: the hot iteration against a cache holding one photo. -/
theorem C7_memory_pressure_cleanup_witness :
    background_fetch_step sampleHotEnv sampleCache =
      (cleanup_cache sampleCache, IterAction.cleanup 10) ∧
    (cleanup_cache sampleCache).photo_queue = [] ∧
    (cleanup_cache sampleCache).closed_imgs =
      sampleCache.closed_imgs ++
        sampleCache.photo_queue.flatMap closeIdsOf ∧
    (cleanup_cache sampleCache).gc_count = sampleCache.gc_count + 1 ∧
    (∀ r, background_fetch_step
        { sampleHotEnv with fetchResult := r } sampleCache =
      background_fetch_step sampleHotEnv sampleCache) :=
  C7_memory_pressure_cleanup sampleHotEnv sampleCache rfl rfl (by decide)

/-- C1 counterexample: it is not true that cache entries leave the queue
only through `get_photo` dequeues. Concretely, after one producer iteration
caches a photo, a producer iteration that measures memory above
`MAX_MEMORY_MB` empties the queue through `cleanup_cache`, and it is not a
consumer call. -/
theorem C1_no_eviction_cex : ¬ noEvictionClaim := by
  intro hclaim
  obtain ⟨fallback, hfb⟩ := hclaim [Event.bgStep sampleFetchEnv]
    (Event.bgStep sampleHotEnv) (by decide)
  exact Event.noConfusion hfb

/-- C1 amended: in any single event, the photo queue is unchanged, or gains
one record at the back, or the event is a `get_photo` call that removes
exactly the front record, or the event is a producer iteration that measured
memory above `MAX_MEMORY_MB` and discarded the whole queue through
`cleanup_cache`; moreover `get_photo` on a non-empty queue always returns
the front (oldest) record, so consumption is FIFO. -/
theorem C1_fifo_or_memory_cleanup (s : CacheState) (e : Event) :
    ((applyEvent s e).photo_queue = s.photo_queue ∨
     (∃ pd, (applyEvent s e).photo_queue = s.photo_queue ++ [pd]) ∨
     ((∃ fallback, e = Event.consume fallback) ∧
        (applyEvent s e).photo_queue = s.photo_queue.tail) ∨
     ((∃ env, e = Event.bgStep env ∧ MAX_MEMORY_MB < env.memory_mb) ∧
        (applyEvent s e).photo_queue = [])) ∧
    (∀ fallback pd rest, s.photo_queue = pd :: rest →
      get_photo fallback s = ({ s with photo_queue := rest }, some pd)) := by
  constructor
  · cases e with
    | bgStep env =>
      simp only [applyEvent, background_fetch_step]
      split
      · left; rfl
      · simp only [background_fetch_iter]
        split
        · left; rfl
        · split
          · right; right; right
            exact ⟨⟨env, rfl, by assumption⟩, rfl⟩
          · split
            · split
              · right; left; exact ⟨_, rfl⟩
              · left; rfl
            · left; rfl
    | consume fallback =>
      simp only [applyEvent, get_photo]
      split
      · left; rfl
      · next pd rest heq =>
        right; right; left
        exact ⟨⟨fallback, rfl⟩, by simp [heq]⟩
    | stopFetch => left; rfl
  · intro fallback pd rest heq
    simp [get_photo, heq]

/-- Witness for the amended C1: dequeuing from a one-element queue returns
that front record and empties the queue. -/
theorem C1_fifo_or_memory_cleanup_witness :
    get_photo none sampleCache =
      ({ sampleCache with photo_queue := [] }, some samplePhoto) :=
  (C1_fifo_or_memory_cleanup sampleCache (Event.consume none)).2 none
    samplePhoto [] rfl

/-- The call `update_image` never changes whether the window is destroyed. -/
theorem update_image_window (env : UpdEnv) (s : FrameState) :
    (update_image env s).1.window_destroyed = s.window_destroyed := by
  simp only [update_image]
  repeat' split
  all_goals rfl

/-- C3: every `update_image` call passes `UPDATE_INTERVAL` (180000 ms) to
`self.root.after` for the next invocation, whatever the fetch produced, and
no next invocation is scheduled exactly when the window has been destroyed
(`tk.TclError`). -/
theorem C3_fixed_timer (env : UpdEnv) (s : FrameState) :
    (update_image env s).2 =
      (if s.window_destroyed then none else some UPDATE_INTERVAL) ∧
    (update_image env s).1.window_destroyed = s.window_destroyed ∧
    UPDATE_INTERVAL = 180000 := by
  have hsnd : (update_image env s).2 =
      (if (update_image env s).1.window_destroyed then none
       else some UPDATE_INTERVAL) := rfl
  rw [hsnd, update_image_window]
  exact ⟨rfl, rfl, rfl⟩

/-- C4: when `get_photo` hands `update_image` a record carrying a decoded
image, `current_pil_image` is set to exactly that image and the display
label is configured with a rendering of it, scaled to the window. -/
theorem C4_success_sets_display (env : UpdEnv) (s : FrameState)
    (pd : PhotoData) (img : ImageObj) (loc : List Char)
    (hpd : (get_photo env.fallback_fetch s.cache).2 = some pd)
    (himg : pdImage pd = some img)
    (hloc : pdLocation pd = some loc) :
    (update_image env s).1.current_pil_image = some img ∧
    (update_image env s).1.current_location = some loc ∧
    ∃ d, (update_image env s).1.label_image = some d ∧
      (d.width, d.height) =
        thumbnail_dims img.width img.height env.window_width
          env.window_height := by
  simp only [update_image, hpd, himg, hloc]
  repeat' split
  all_goals exact ⟨rfl, rfl, ⟨_, rfl, rfl⟩⟩

/-- Witness for C4: a cached photo is displayed. -/
theorem C4_success_sets_display_witness :
    (update_image sampleUpdEnv sampleFrame).1.current_pil_image =
      some { id := 7, width := 640, height := 480 } ∧
    (update_image sampleUpdEnv sampleFrame).1.current_location =
      some "New York".data ∧
    ∃ d, (update_image sampleUpdEnv sampleFrame).1.label_image = some d ∧
      (d.width, d.height) =
        thumbnail_dims 640 480 sampleUpdEnv.window_width
          sampleUpdEnv.window_height :=
  C4_success_sets_display sampleUpdEnv sampleFrame samplePhoto
    { id := 7, width := 640, height := 480 } ("New York".data) rfl rfl rfl

/-- C9: when `get_photo` yields nothing, or a record without an `image`
entry, `update_image` leaves `current_pil_image`, `current_location` and the
configured label untouched and closes no image object. -/
theorem C9_failure_leaves_display (env : UpdEnv) (s : FrameState)
    (h : (get_photo env.fallback_fetch s.cache).2 = none ∨
      ∃ pd, (get_photo env.fallback_fetch s.cache).2 = some pd ∧
        pdImage pd = none) :
    (update_image env s).1.current_pil_image = s.current_pil_image ∧
    (update_image env s).1.current_location = s.current_location ∧
    (update_image env s).1.label_image = s.label_image ∧
    (update_image env s).1.closed_imgs = s.closed_imgs := by
  rcases h with h | ⟨pd, hpd, himg⟩
  · simp [update_image, h]
  · simp [update_image, hpd, himg]

/-- Witness for C9: an empty cache with an empty fallback changes nothing
on the frame. -/
theorem C9_failure_leaves_display_witness :
    (update_image sampleUpdEnv emptyCacheFrame).1.current_pil_image =
      emptyCacheFrame.current_pil_image ∧
    (update_image sampleUpdEnv emptyCacheFrame).1.current_location =
      emptyCacheFrame.current_location ∧
    (update_image sampleUpdEnv emptyCacheFrame).1.label_image =
      emptyCacheFrame.label_image ∧
    (update_image sampleUpdEnv emptyCacheFrame).1.closed_imgs =
      emptyCacheFrame.closed_imgs :=
  C9_failure_leaves_display sampleUpdEnv emptyCacheFrame (Or.inl rfl)

/-- C5: every failure mode is handled the same way. The three fetch failure
sites (request error, response without `fullUrl`, undecodable image data)
all collapse to the single `None` result; in the background loop a `None`
fetch and an unexpected exception both leave the state unchanged and sleep
5 seconds before the loop retries; and the UI callback schedules its next
attempt after `UPDATE_INTERVAL` whether or not it got a photo. -/
theorem C5_uniform_failure_handling (env : ApiEnv) (ienv : IterEnv)
    (s : CacheState) (uenv : UpdEnv) (fs : FrameState) :
    ((get_random_photo_from_api_r env).isFailure = true →
      get_random_photo_from_api env = none) ∧
    (s.stop_fetching = false → ienv.raisesExc = false →
      ienv.memory_mb ≤ MAX_MEMORY_MB →
      s.photo_queue.length < s.cache_size → ienv.fetchResult = none →
      background_fetch_step ienv s = (s, IterAction.fetchFailed 5)) ∧
    (s.stop_fetching = false → ienv.raisesExc = true →
      background_fetch_step ienv s = (s, IterAction.excCaught 5)) ∧
    (fs.window_destroyed = false →
      (update_image uenv fs).2 = some UPDATE_INTERVAL) := by
  refine ⟨?_, ?_, ?_, ?_⟩
  · intro hfail
    unfold get_random_photo_from_api
    cases hr : get_random_photo_from_api_r env with
    | ok pd => rw [hr] at hfail; cases hfail
    | errRequest => rfl
    | errFormat => rfl
    | errImage => rfl
  · intro hstop hexc hmem hroom hfetch
    simp [background_fetch_step, background_fetch_iter, hstop, hexc,
      hroom, hfetch, Nat.not_lt_of_le hmem]
  · intro hstop hexc
    simp [background_fetch_step, background_fetch_iter, hstop, hexc]
  · intro hwin
    have hsnd : (update_image uenv fs).2 =
        (if (update_image uenv fs).1.window_destroyed then none
         else some UPDATE_INTERVAL) := rfl
    rw [hsnd, update_image_window, hwin]
    rfl

/-- Witness for C5: a failed metadata request, a failed fetch iteration, an
exception-hit iteration, and a failed UI update, each at concrete inputs. -/
theorem C5_uniform_failure_handling_witness :
    get_random_photo_from_api failApiEnv = none ∧
    background_fetch_step sampleFailFetchEnv initCache =
      (initCache, IterAction.fetchFailed 5) ∧
    background_fetch_step sampleExcEnv initCache =
      (initCache, IterAction.excCaught 5) ∧
    (update_image sampleUpdEnv emptyCacheFrame).2 =
      some UPDATE_INTERVAL :=
  ⟨(C5_uniform_failure_handling failApiEnv sampleFailFetchEnv initCache
      sampleUpdEnv emptyCacheFrame).1 rfl,
   (C5_uniform_failure_handling failApiEnv sampleFailFetchEnv initCache
      sampleUpdEnv emptyCacheFrame).2.1 rfl rfl (by decide) (by decide) rfl,
   (C5_uniform_failure_handling failApiEnv sampleExcEnv initCache
      sampleUpdEnv emptyCacheFrame).2.2.1 rfl rfl,
   (C5_uniform_failure_handling failApiEnv sampleExcEnv initCache
      sampleUpdEnv emptyCacheFrame).2.2.2 rfl⟩

/-- C8: `get_random_photo_from_api` returns `None` or a dict with exactly
the keys `image` and `location`; the image is the decoded response
body, and the location is the `place` field (defaulting to
`Unknown Location` when absent) with underscores and hyphens replaced by
spaces and then title-cased. -/
theorem C8_api_result_shape (env : ApiEnv) :
    get_random_photo_from_api env = none ∨
    ∃ pd, get_random_photo_from_api env = some pd ∧
      pd.map Prod.fst = ["image", "location"] ∧
      (∃ img, pdImage pd = some img ∧ env.imgResult = some (some img)) ∧
      ∃ data, env.metaResult = some data ∧
        pdLocation pd = some (pyTitle (pyReplaceChar '-' ' '
          (pyReplaceChar '_' ' ' (data.place.getD UNKNOWN_LOCATION)))) ∧
        (data.place = none → pdLocation pd = some UNKNOWN_LOCATION) := by
  cases hm : env.metaResult with
  | none =>
    left
    simp [get_random_photo_from_api, get_random_photo_from_api_r, hm]
  | some data =>
    by_cases hc : (data.isTruthy && data.fullUrl.isSome) = true
    · cases hi : env.imgResult with
      | none =>
        left
        simp [get_random_photo_from_api, get_random_photo_from_api_r,
          hm, hc, hi]
      | some oimg =>
        cases oimg with
        | none =>
          left
          simp [get_random_photo_from_api, get_random_photo_from_api_r,
            hm, hc, hi]
        | some image =>
          right
          have hpd : get_random_photo_from_api env =
              some [("image", PyVal.vImg image),
                ("location", PyVal.vStr (pyTitle (pyReplaceChar '-' ' '
                  (pyReplaceChar '_' ' '
                    (data.place.getD UNKNOWN_LOCATION)))))] := by
            simp [get_random_photo_from_api, get_random_photo_from_api_r,
              hm, hc, hi]
          refine ⟨_, hpd, rfl, ⟨image, ?_, rfl⟩, data, rfl, ?_, ?_⟩
          · rfl
          · rfl
          · intro hplace
            have : pyTitle (pyReplaceChar '-' ' '
                (pyReplaceChar '_' ' ' UNKNOWN_LOCATION)) =
                UNKNOWN_LOCATION := by decide
            simp [pdLocation, dictGet, hplace, this]
    · left
      simp [get_random_photo_from_api, get_random_photo_from_api_r,
        hm, hc]

/-- Heap lookup at the id just consed on. -/
theorem heapGet_cons_self (i : Nat) (dd : ImgData) (h : Heap) :
    heapGet ((i, dd) :: h) i = some dd := by
  simp [heapGet, List.find?]

/-- Heap lookup skips a consed entry with a different id. -/
theorem heapGet_cons_of_ne (j i : Nat) (dd : ImgData) (h : Heap)
    (hne : j ≠ i) : heapGet ((j, dd) :: h) i = heapGet h i := by
  have hb : (j == i) = false := by simpa using hne
  simp [heapGet, List.find?, hb]

/-- Updating an id that no entry carries changes nothing. -/
theorem heapSet_not_mem (h : Heap) (i : Nat) (dd : ImgData)
    (hni : ∀ p ∈ h, p.1 ≠ i) : heapSet h i dd = h := by
  induction h with
  | nil => rfl
  | cons q t ih =>
    have hq : (q.1 == i) = false := by
      simpa using hni q (List.mem_cons_self q t)
    have ht : heapSet t i dd = t :=
      ih fun p hp => hni p (List.mem_cons_of_mem q hp)
    calc heapSet (q :: t) i dd
        = (if (q.1 == i) = true then (i, dd) else q) :: heapSet t i dd := rfl
      _ = q :: t := by rw [hq, ht]; simp

/-- Overwriting the id of a freshly consed entry replaces just that entry,
as long as no other entry carries the id. -/
theorem heapSet_cons_self (i : Nat) (dd dd' : ImgData) (h : Heap)
    (hni : ∀ p ∈ h, p.1 ≠ i) :
    heapSet ((i, dd) :: h) i dd' = (i, dd') :: h := by
  calc heapSet ((i, dd) :: h) i dd'
      = (if (i == i) = true then (i, dd') else (i, dd)) :: heapSet h i dd' :=
        rfl
    _ = (i, dd') :: h := by rw [heapSet_not_mem h i dd' hni]; simp

/-- A successful lookup means some entry carries the id. -/
theorem heapGet_eq_some_key (h : Heap) (i : Nat) (d : ImgData)
    (hg : heapGet h i = some d) : ∃ p ∈ h, p.1 = i := by
  unfold heapGet at hg
  cases hf : h.find? (fun p => p.1 == i) with
  | none => rw [hf] at hg; cases hg
  | some p =>
    have hmem := List.mem_of_find?_eq_some hf
    have hpred := List.find?_some hf
    exact ⟨p, hmem, by simpa using hpred⟩

/-- C10: `add_location_text` never mutates the image it was given (its heap
entry is unchanged) and never raises (every environment yields a normal
return). It returns the original image exactly when `image.copy()` or
`ImageDraw.Draw` raised, and otherwise returns a fresh copy — never the
input — whose data is the original data with at most the location overlay
appended. -/
theorem C10_overlay_drawn_on_copy (env : TextEnv) (h : Heap) (image : Nat)
    (loc : List Char) (d : ImgData)
    (himg : heapGet h image = some d)
    (hfresh : ∀ p ∈ h, p.1 ≠ env.new_id) :
    heapGet (add_location_text env h image loc).1 image = some d ∧
    ((add_location_text env h image loc).2 = image ↔
      (env.copy_raises = true ∨ env.draw_init_raises = true)) ∧
    (env.copy_raises = false → env.draw_init_raises = false →
      (add_location_text env h image loc).2 = env.new_id ∧
      env.new_id ≠ image ∧
      ∃ ov, heapGet (add_location_text env h image loc).1 env.new_id =
          some { width := d.width, height := d.height,
                 overlays := d.overlays ++ ov, closed := false } ∧
        (ov = [] ∨ ov = [loc])) := by
  have hne : image ≠ env.new_id := by
    obtain ⟨p, hp, hpi⟩ := heapGet_eq_some_key h image d himg
    exact hpi ▸ hfresh p hp
  obtain ⟨cr, dir, nid, ff, dr⟩ := env
  dsimp only at hfresh hne ⊢
  cases cr with
  | true =>
    have heq : add_location_text ⟨true, dir, nid, ff, dr⟩ h image loc =
        (h, image) := by
      simp [add_location_text, himg]
    rw [heq]
    exact ⟨himg, by simp, fun hc _ => Bool.noConfusion hc⟩
  | false =>
    cases dir with
    | true =>
      have hsetc := heapSet_cons_self nid
        { width := d.width, height := d.height, overlays := d.overlays,
          closed := false }
        { width := d.width, height := d.height, overlays := d.overlays,
          closed := true } h hfresh
      have heq : add_location_text ⟨false, true, nid, ff, dr⟩ h image loc =
          ((nid,
            { width := d.width, height := d.height,
              overlays := d.overlays, closed := true }) :: h,
           image) := by
        simp [add_location_text, himg, hsetc]
      rw [heq]
      refine ⟨?_, by simp, fun _ hd => Bool.noConfusion hd⟩
      rw [heapGet_cons_of_ne nid image _ h (Ne.symm hne)]
      exact himg
    | false =>
      by_cases hdraw : (ff = true ∧ loc ≠ [] ∧ ¬(dr = true))
      · have hsetc := heapSet_cons_self nid
          { width := d.width, height := d.height, overlays := d.overlays,
            closed := false }
          { width := d.width, height := d.height,
            overlays := d.overlays ++ [loc], closed := false } h hfresh
        have heq : add_location_text ⟨false, false, nid, ff, dr⟩ h image loc =
            ((nid,
              { width := d.width, height := d.height,
                overlays := d.overlays ++ [loc], closed := false }) :: h,
             nid) := by
          simp [add_location_text, himg, hsetc, hdraw.1, hdraw.2.1,
            hdraw.2.2]
        rw [heq]
        refine ⟨?_, by simp [Ne.symm hne], ?_⟩
        · rw [heapGet_cons_of_ne nid image _ h (Ne.symm hne)]
          exact himg
        · intro _ _
          exact ⟨rfl, Ne.symm hne, [loc],
            heapGet_cons_self nid
              { width := d.width, height := d.height,
                overlays := d.overlays ++ [loc], closed := false } h,
            Or.inr rfl⟩
      · have heq : add_location_text ⟨false, false, nid, ff, dr⟩ h image loc =
            ((nid,
              { width := d.width, height := d.height,
                overlays := d.overlays, closed := false }) :: h,
             nid) := by
          simp only [add_location_text, himg]
          rw [if_neg hdraw]
          simp
        rw [heq]
        refine ⟨?_, by simp [Ne.symm hne], ?_⟩
        · rw [heapGet_cons_of_ne nid image _ h (Ne.symm hne)]
          exact himg
        · intro _ _
          refine ⟨rfl, Ne.symm hne, [], ?_, Or.inl rfl⟩
          rw [heapGet_cons_self nid
            { width := d.width, height := d.height,
              overlays := d.overlays, closed := false } h]
          simp

/-- Witness for C10: drawing a location onto the sample image. -/
theorem C10_overlay_drawn_on_copy_witness :
    heapGet (add_location_text sampleTextEnv sampleHeap 3 "Rome".data).1 3 =
      some { width := 100, height := 80, overlays := [], closed := false } ∧
    ((add_location_text sampleTextEnv sampleHeap 3 "Rome".data).2 = 3 ↔
      (sampleTextEnv.copy_raises = true ∨
        sampleTextEnv.draw_init_raises = true)) ∧
    ((add_location_text sampleTextEnv sampleHeap 3 "Rome".data).2 =
        sampleTextEnv.new_id ∧
      sampleTextEnv.new_id ≠ 3 ∧
      ∃ ov, heapGet (add_location_text sampleTextEnv sampleHeap 3
            "Rome".data).1 sampleTextEnv.new_id =
          some { width := 100, height := 80, overlays := [] ++ ov,
                 closed := false } ∧
        (ov = [] ∨ ov = ["Rome".data])) := by
  have h := C10_overlay_drawn_on_copy sampleTextEnv sampleHeap 3 "Rome".data
    { width := 100, height := 80, overlays := [], closed := false }
    rfl (by decide)
  exact ⟨h.1, h.2.1, h.2.2 rfl rfl⟩

end PhotoFrameApp
